import Mathlib

/-!
Shallow embedding of the patient-form front-end: the `FormPage` component's
state and mutation handlers, the `/submit` request-body construction snippet,
and the `Predict` view's submit handler, together with proofs of the
behavioural properties stated in the specification.
-/

namespace FormPage

/-- The seven diagnosis labels rendered as checkboxes in `FormPage`. -/
def diagnosisLabels : List String :=
  ["Circulatory", "Diabetes", "Digestive", "Injury",
   "Musculoskeletal", "Respiratory", "Other"]

/-- Core of `handleDiagnosisChange`: given the toggled checkbox `value` and the
current `diagnosis` array, produce the next `diagnosis` array.  Mirrors the JS:
if the value is already selected it is filtered out; otherwise it is appended
only when fewer than 3 are selected; otherwise the array is unchanged. -/
def diagnosisToggle (value : String) (diagnosis : List String) : List String :=
  if diagnosis.contains value then
    diagnosis.filter (fun d => d ≠ value)
  else if diagnosis.length < 3 then
    diagnosis ++ [value]
  else
    diagnosis

/-- Apply a sequence of diagnosis toggles in order, starting from `l`. -/
def runToggles (toggles : List String) (l : List String) : List String :=
  toggles.foldl (fun acc v => diagnosisToggle v acc) l

lemma diagnosisToggle_of_mem (l : List String) (v : String) (h : v ∈ l) :
    diagnosisToggle v l = l.filter (fun d => d ≠ v) := by
  unfold diagnosisToggle
  rw [if_pos (List.elem_iff.mpr h)]

lemma diagnosisToggle_of_not_mem_lt (l : List String) (v : String)
    (hmem : v ∉ l) (hlen : l.length < 3) :
    diagnosisToggle v l = l ++ [v] := by
  unfold diagnosisToggle
  rw [if_neg (fun hc => hmem (List.elem_iff.mp hc)), if_pos hlen]

lemma diagnosisToggle_length_le (l : List String) (v : String)
    (h : l.length ≤ 3) : (diagnosisToggle v l).length ≤ 3 := by
  unfold diagnosisToggle
  split
  · exact le_trans (List.length_filter_le _ _) h
  · split
    · rename_i hlt
      simp only [List.length_append, List.length_singleton]
      omega
    · exact h

lemma runToggles_length_le (toggles : List String) :
    ∀ (l : List String), l.length ≤ 3 → (runToggles toggles l).length ≤ 3 := by
  induction toggles with
  | nil => intro l h; exact h
  | cons t ts ih =>
      intro l h
      exact ih _ (diagnosisToggle_length_le l t h)

lemma diagnosisToggle_nodup (l : List String) (v : String)
    (h : l.Nodup) : (diagnosisToggle v l).Nodup := by
  unfold diagnosisToggle
  split
  · exact h.filter _
  · split
    · rename_i hc _
      have hv : v ∉ l := fun hm => hc (List.elem_iff.mpr hm)
      simpa [List.nodup_append] using ⟨h, hv⟩
    · exact h

lemma diagnosisToggle_mem_sub (l : List String) (v x : String)
    (hx : x ∈ diagnosisToggle v l) : x ∈ l ∨ x = v := by
  unfold diagnosisToggle at hx
  split at hx
  · exact Or.inl (List.mem_of_mem_filter hx)
  · split at hx
    · rcases List.mem_append.mp hx with h | h
      · exact Or.inl h
      · exact Or.inr (by simpa using h)
    · exact Or.inl hx

lemma runToggles_nodup_and_labels (toggles : List String)
    (hlab : ∀ v ∈ toggles, v ∈ diagnosisLabels) :
    ∀ (l : List String), l.Nodup → (∀ x ∈ l, x ∈ diagnosisLabels) →
      (runToggles toggles l).Nodup ∧
      (∀ x ∈ runToggles toggles l, x ∈ diagnosisLabels) := by
  induction toggles with
  | nil => intro l h1 h2; exact ⟨h1, h2⟩
  | cons t ts ih =>
      intro l h1 h2
      refine ih (fun v hv => hlab v (List.mem_cons_of_mem _ hv)) _
        (diagnosisToggle_nodup l t h1) ?_
      intro x hx
      rcases diagnosisToggle_mem_sub l t x hx with h | h
      · exact h2 x h
      · exact h ▸ hlab t (List.mem_cons_self _ _)

/-- C1: starting from the empty diagnosis list, every sequence of
`handleDiagnosisChange` toggles keeps the list length at most 3, and toggling a
value currently in the list removes it (succeeds) regardless of the list's
size. -/
theorem diagnosis_cap_and_removal (toggles : List String) :
    (runToggles toggles []).length ≤ 3 ∧
    (∀ (l : List String) (v : String), v ∈ l →
      diagnosisToggle v l = l.filter (fun d => d ≠ v)) := by
  refine ⟨runToggles_length_le toggles [] (by simp), ?_⟩
  intro l v h
  exact diagnosisToggle_of_mem l v h

theorem diagnosis_cap_and_removal_witness :
    (runToggles ["Diabetes", "Injury", "Other", "Circulatory"] []).length ≤ 3 ∧
    diagnosisToggle "Diabetes" ["Diabetes", "Injury", "Other", "Circulatory"]
      = ["Diabetes", "Injury", "Other", "Circulatory"].filter
          (fun d => d ≠ "Diabetes") :=
  ⟨(diagnosis_cap_and_removal ["Diabetes", "Injury", "Other", "Circulatory"]).1,
   (diagnosis_cap_and_removal ["Diabetes", "Injury", "Other", "Circulatory"]).2
     ["Diabetes", "Injury", "Other", "Circulatory"] "Diabetes" (by decide)⟩

/-- C4: toggling a value `v` currently in the diagnosis list yields exactly the
previous list with the occurrences of `v` removed, every other element
unchanged and in the same relative order (i.e. the filter of the list by
`≠ v`). -/
theorem diagnosis_toggle_removes_exactly (l : List String) (v : String)
    (h : v ∈ l) :
    diagnosisToggle v l = l.filter (fun d => d ≠ v) :=
  diagnosisToggle_of_mem l v h

theorem diagnosis_toggle_removes_exactly_witness :
    diagnosisToggle "Injury" ["Diabetes", "Injury", "Other"]
      = ["Diabetes", "Injury", "Other"].filter (fun d => d ≠ "Injury") :=
  diagnosis_toggle_removes_exactly ["Diabetes", "Injury", "Other"] "Injury"
    (by decide)

/-- C5: toggling a value `v` not in the diagnosis list, when fewer than 3 are
selected, appends exactly `v` at the end, preserving the order of first
selection of the existing elements. -/
theorem diagnosis_toggle_appends (l : List String) (v : String)
    (hmem : v ∉ l) (hlen : l.length < 3) :
    diagnosisToggle v l = l ++ [v] :=
  diagnosisToggle_of_not_mem_lt l v hmem hlen

theorem diagnosis_toggle_appends_witness :
    diagnosisToggle "Other" ["Diabetes", "Injury"]
      = ["Diabetes", "Injury"] ++ ["Other"] :=
  diagnosis_toggle_appends ["Diabetes", "Injury"] "Other" (by decide) (by decide)

/-- C10: starting from the empty diagnosis list, for every sequence of toggles
drawn from the fixed 7-item enumeration, the resulting diagnosis list has no
duplicates and every element is one of the 7 enumerated labels. -/
theorem diagnosis_set_invariant (toggles : List String)
    (hlab : ∀ v ∈ toggles, v ∈ diagnosisLabels) :
    (runToggles toggles []).Nodup ∧
    (∀ x ∈ runToggles toggles [], x ∈ diagnosisLabels) :=
  runToggles_nodup_and_labels toggles hlab [] (by simp) (by simp)

theorem diagnosis_set_invariant_witness :
    (runToggles ["Diabetes", "Diabetes", "Injury"] []).Nodup ∧
    (∀ x ∈ runToggles ["Diabetes", "Diabetes", "Injury"] [],
      x ∈ diagnosisLabels) :=
  diagnosis_set_invariant ["Diabetes", "Diabetes", "Injury"] (by decide)

/-- A JS value stored in the `formData` object: the form fields are strings,
except `diagnosis` which is an array of strings. -/
inductive JSValue where
  | str : String → JSValue
  | arr : List String → JSValue
deriving DecidableEq

/-- The `formData` JS object, as an ordered key-value map.  A computed-key
spread `\x7b...prev, [name]: value\x7d` overwrites an existing key in place or
appends a fresh key at the end, which `setKey` mirrors. -/
def FormObject : Type := List (String × JSValue)

def getKey : FormObject → String → Option JSValue
  | [], _ => none
  | (k', v') :: rest, k => if k' = k then some v' else getKey rest k

def setKey : FormObject → String → JSValue → FormObject
  | [], k, v => [(k, v)]
  | (k', v') :: rest, k, v =>
      if k' = k then (k, v) :: rest else (k', v') :: setKey rest k v

/-- The initial `formData` state of `FormPage`: note the key is spelled
`aic`, not `a1c`. -/
def initialFormData : FormObject :=
  [("age", JSValue.str ""), ("visits", JSValue.str ""),
   ("diagnosis", JSValue.arr []), ("glucose", JSValue.str ""),
   ("aic", JSValue.str "")]

/-- The `handleChange` handler: generic field update by the input's `name`/`value` pair,
via computed-key spread. -/
def handleChange (name value : String) (prev : FormObject) : FormObject :=
  setKey prev name (JSValue.str value)

/-- The `handleDiagnosisChange` handler at the state level: reads `prev.diagnosis`,
applies the toggle policy, and writes the result back under `diagnosis`. -/
def handleDiagnosisChange (value : String) (prev : FormObject) : FormObject :=
  match getKey prev "diagnosis" with
  | some (JSValue.arr diagnosis) =>
      setKey prev "diagnosis" (JSValue.arr (diagnosisToggle value diagnosis))
  | _ => prev

/-- The `handleSubmit` handler suppresses the default submission, logs, and navigates to
`/results` passing the current form state unchanged as the navigation
payload. -/
def handleSubmitPayload (formData : FormObject) : FormObject := formData

/-- A user interaction on the rendered form: either a change event from one of
the named inputs (the `age`, `visits`, `glucose` and `a1c` controls, all wired
to `handleChange`), or a diagnosis checkbox toggle wired to
`handleDiagnosisChange`. -/
inductive FormEvent where
  | change : String → String → FormEvent
  | diagToggle : String → FormEvent

/-- The input names rendered in the form that dispatch to `handleChange`:
the three selects are named `age`, `glucose` and `a1c`, and the number input
is named `visits`.  No rendered input is named `aic`. -/
def inputNames : List String := ["age", "visits", "glucose", "a1c"]

def validEvent : FormEvent → Bool
  | FormEvent.change name _ => inputNames.contains name
  | FormEvent.diagToggle _ => true

def applyEvent (s : FormObject) : FormEvent → FormObject
  | FormEvent.change name value => handleChange name value s
  | FormEvent.diagToggle value => handleDiagnosisChange value s

def runEvents (events : List FormEvent) (s : FormObject) : FormObject :=
  events.foldl applyEvent s

lemma getKey_setKey_self (o : FormObject) (k : String) (v : JSValue) :
    getKey (setKey o k v) k = some v := by
  induction o with
  | nil => simp [setKey, getKey]
  | cons p rest ih =>
      obtain ⟨k', v'⟩ := p
      by_cases h : k' = k
      · simp [setKey, getKey, h]
      · simp [setKey, getKey, h, ih]

lemma getKey_setKey_ne (o : FormObject) (k k' : String) (v : JSValue)
    (h : k ≠ k') : getKey (setKey o k v) k' = getKey o k' := by
  induction o with
  | nil => simp [setKey, getKey, h]
  | cons p rest ih =>
      obtain ⟨k₀, v₀⟩ := p
      by_cases h₀ : k₀ = k
      · simp [setKey, getKey, h₀, h]
      · simp [setKey, getKey, h₀, ih]

lemma applyEvent_preserves_aic (s : FormObject) (e : FormEvent)
    (hv : validEvent e = true)
    (h : getKey s "aic" = some (JSValue.str "")) :
    getKey (applyEvent s e) "aic" = some (JSValue.str "") := by
  cases e with
  | change name value =>
      have hname : name ∈ inputNames := List.elem_iff.mp hv
      have hne : name ≠ "aic" := by
        simp only [inputNames, List.mem_cons, List.mem_singleton,
          List.not_mem_nil, or_false] at hname
        rcases hname with h' | h' | h' | h' <;> subst h' <;> decide
      rw [applyEvent, handleChange, getKey_setKey_ne _ _ _ _ hne]
      exact h
  | diagToggle value =>
      rw [applyEvent, handleDiagnosisChange]
      split
      · rename_i l heq
        rw [getKey_setKey_ne _ _ _ _ (by decide)]
        exact h
      · exact h

lemma runEvents_preserves_aic (events : List FormEvent) :
    ∀ (s : FormObject), (∀ e ∈ events, validEvent e = true) →
      getKey s "aic" = some (JSValue.str "") →
      getKey (runEvents events s) "aic" = some (JSValue.str "") := by
  induction events with
  | nil => intro s _ h; exact h
  | cons e es ih =>
      intro s hv h
      exact ih _ (fun e' he' => hv e' (List.mem_cons_of_mem _ he'))
        (applyEvent_preserves_aic s e (hv e (List.mem_cons_self _ _)) h)

/-- C3: the A1C select is named `a1c` while the initial state key is `aic`;
for every sequence of rendered-form interactions the `aic` field stays the
empty string, an A1C selection is stored under the separate `a1c` key, and the
navigation payload on submit has `aic` equal to the empty string. -/
theorem aic_key_mismatch (events : List FormEvent)
    (hv : ∀ e ∈ events, validEvent e = true) :
    getKey (runEvents events initialFormData) "aic"
      = some (JSValue.str "") ∧
    (∀ v : String,
      getKey (applyEvent (runEvents events initialFormData)
        (FormEvent.change "a1c" v)) "a1c" = some (JSValue.str v)) ∧
    getKey (handleSubmitPayload (runEvents events initialFormData)) "aic"
      = some (JSValue.str "") := by
  have h := runEvents_preserves_aic events initialFormData hv (by rfl)
  refine ⟨h, ?_, h⟩
  intro v
  exact getKey_setKey_self _ _ _

theorem aic_key_mismatch_witness :
    (∀ e ∈ [FormEvent.change "a1c" "high", FormEvent.diagToggle "Diabetes"],
      validEvent e = true) ∧
    getKey (runEvents [FormEvent.change "a1c" "high",
      FormEvent.diagToggle "Diabetes"] initialFormData) "aic"
      = some (JSValue.str "") :=
  ⟨by decide,
   (aic_key_mismatch [FormEvent.change "a1c" "high",
      FormEvent.diagToggle "Diabetes"] (by decide)).1⟩

/-- C6: submitting with no field ever modified passes the current form state
through unchanged as the navigation payload, and that payload is the initial
state with `age`, `visits`, `glucose`, `aic` empty and `diagnosis` the empty
list; no validation blocks submission. -/
theorem empty_submit_payload :
    (∀ s : FormObject, handleSubmitPayload s = s) ∧
    handleSubmitPayload initialFormData
      = [("age", JSValue.str ""), ("visits", JSValue.str ""),
         ("diagnosis", JSValue.arr []), ("glucose", JSValue.str ""),
         ("aic", JSValue.str "")] :=
  ⟨fun _ => rfl, rfl⟩

end FormPage

namespace JS

/-- A JS number: NaN, a signed infinity, or a finite value (modelled exactly
as a rational; float rounding is irrelevant to the claims proved here). -/
inductive JSNum where
  | nan : JSNum
  | inf : Bool → JSNum
  | num : ℚ → JSNum
deriving DecidableEq

/-- Strip leading and trailing whitespace, as JS string-to-number conversions
do before parsing. -/
def trimChars (cs : List Char) : List Char :=
  ((cs.dropWhile Char.isWhitespace).reverse.dropWhile Char.isWhitespace).reverse

/-- Value of a list of decimal digit characters. -/
def digitsVal (ds : List Char) : Nat :=
  ds.foldl (fun n c => n * 10 + (c.toNat - Char.toNat '0')) 0

/-- Result of parsing an unsigned decimal literal off the front of a
character list. -/
structure DecParse where
  value : ℚ
  rest : List Char
deriving DecidableEq

/-- Parse an unsigned JS decimal literal
(`digits [. digits] [exp]` or `. digits [exp]`) as a longest prefix; `none`
when no digits are found at the start.  An `e`/`E` with no following digits is
not consumed (as in `parseFloat("1e")`). -/
def parseDecPrefix (cs : List Char) : Option DecParse :=
  let intDs := cs.takeWhile Char.isDigit
  let cs1 := cs.drop intDs.length
  let fracDs :=
    match cs1 with
    | '.' :: rest => rest.takeWhile Char.isDigit
    | _ => []
  let cs2 :=
    match cs1 with
    | '.' :: rest => rest.drop fracDs.length
    | _ => cs1
  if intDs.isEmpty ∧ fracDs.isEmpty then none
  else
    let mant : ℚ :=
      (digitsVal intDs : ℚ) + (digitsVal fracDs : ℚ) / ((10 : ℚ) ^ fracDs.length)
    match cs2 with
    | c :: rest =>
        if c = 'e' ∨ c = 'E' then
          let esign : Int := match rest with | '-' :: _ => -1 | _ => 1
          let rest' := match rest with
            | '-' :: r => r
            | '+' :: r => r
            | _ => rest
          let eds := rest'.takeWhile Char.isDigit
          if eds.isEmpty then some ⟨mant, cs2⟩
          else some ⟨mant * (10 : ℚ) ^ (esign * (digitsVal eds : Int)),
                     rest'.drop eds.length⟩
        else some ⟨mant, cs2⟩
    | [] => some ⟨mant, []⟩

/-- JS `parseFloat`: trim, optional sign, then `Infinity` or the longest decimal
literal prefix; NaN when no literal starts the string. -/
def parseFloatJS (s : String) : JSNum :=
  let cs := trimChars s.toList
  let neg : Bool := match cs with | '-' :: _ => true | _ => false
  let cs' := match cs with
    | '-' :: rest => rest
    | '+' :: rest => rest
    | _ => cs
  if cs'.take 8 = "Infinity".toList then JSNum.inf neg
  else
    match parseDecPrefix cs' with
    | none => JSNum.nan
    | some p => JSNum.num (if neg then -p.value else p.value)

/-- JS `parseInt(s, 10)`: trim, optional sign, then the longest prefix of decimal
digits; NaN (`none`) when there are no digits. -/
def parseIntJS (s : String) : Option Int :=
  let cs := trimChars s.toList
  let sign : Int := match cs with | '-' :: _ => -1 | _ => 1
  let cs' := match cs with
    | '-' :: rest => rest
    | '+' :: rest => rest
    | _ => cs
  let ds := cs'.takeWhile Char.isDigit
  if ds.isEmpty then none
  else some (sign * (digitsVal ds : Int))

/-- Value of a character as a digit in the given radix, `none` if invalid. -/
def digitValInRadix (radix : Nat) (c : Char) : Option Nat :=
  let v : Option Nat :=
    if c.isDigit then some (c.toNat - Char.toNat '0')
    else if 'a' ≤ c ∧ c ≤ 'z' then some (c.toNat - Char.toNat 'a' + 10)
    else if 'A' ≤ c ∧ c ≤ 'Z' then some (c.toNat - Char.toNat 'A' + 10)
    else none
  match v with
  | some n => if n < radix then some n else none
  | none => none

/-- Parse a whole character list as digits of the given radix; NaN when empty
or any character is not a digit of the radix. -/
def parseRadixFull (radix : Nat) (cs : List Char) : JSNum :=
  if cs.isEmpty then JSNum.nan
  else
    match cs.foldl (fun acc c =>
        match acc, digitValInRadix radix c with
        | some n, some d => some (n * radix + d)
        | _, _ => none) (some 0) with
    | some n => JSNum.num (n : ℚ)
    | none => JSNum.nan

/-- Parse a whole character list as a signed decimal literal or `Infinity`;
NaN when the list is not exactly such a literal. -/
def parseSignedDecFull (cs : List Char) : JSNum :=
  let neg : Bool := match cs with | '-' :: _ => true | _ => false
  let cs' := match cs with
    | '-' :: rest => rest
    | '+' :: rest => rest
    | _ => cs
  if cs' = "Infinity".toList then JSNum.inf neg
  else
    match parseDecPrefix cs' with
    | some p =>
        if p.rest.isEmpty then JSNum.num (if neg then -p.value else p.value)
        else JSNum.nan
    | none => JSNum.nan

/-- JS `Number(s)` conversion of a string: trim; empty gives 0; `0x`/`0o`/`0b`
radix literals; otherwise the whole string must be a signed decimal literal or
`Infinity`, else NaN. -/
def jsToNumber (s : String) : JSNum :=
  let cs := trimChars s.toList
  if cs.isEmpty then JSNum.num 0
  else
    match cs with
    | '0' :: x :: rest =>
        if x = 'x' ∨ x = 'X' then parseRadixFull 16 rest
        else if x = 'o' ∨ x = 'O' then parseRadixFull 8 rest
        else if x = 'b' ∨ x = 'B' then parseRadixFull 2 rest
        else parseSignedDecFull cs
    | _ => parseSignedDecFull cs

end JS

namespace SubmitSnippet

open JS

/-- The backend-facing body built by the `/submit` snippet. -/
structure SubmitBody where
  age : String
  total_visits : Option Int
  diagnoses : List String
  glucose_test : JSNum
  a1c_test : JSNum
deriving DecidableEq

/-- The `body` object construction of the `/submit` snippet: re-keys the
structured form fields, with `parseInt(totalVisits, 10)` and
`parseFloat` over the two categorical test values. -/
def mkSubmitBody (selectedAge totalVisits : String)
    (selectedDiagnosesArray : List String)
    (glucoseValue a1cValue : String) : SubmitBody :=
  { age := selectedAge
    total_visits := parseIntJS totalVisits
    diagnoses := selectedDiagnosesArray
    glucose_test := parseFloatJS glucoseValue
    a1c_test := parseFloatJS a1cValue }

/-- The URL the `/submit` snippet posts to. -/
def submitURL : String := "http://localhost:8000/submit"

/-- The categorical domain of the glucose and A1C test selects. -/
def categoricalDomain : List String := ["high", "normal", "unknown"]

/-- C2: for every glucose or A1C value in the categorical domain
high/normal/unknown, the float parse producing `glucose_test` and `a1c_test`
in the `/submit` body yields NaN. -/
theorem categorical_parse_is_nan (age visits : String) (ds : List String)
    (g a : String) (hg : g ∈ categoricalDomain) (ha : a ∈ categoricalDomain) :
    (mkSubmitBody age visits ds g a).glucose_test = JSNum.nan ∧
    (mkSubmitBody age visits ds g a).a1c_test = JSNum.nan := by
  have hnan : ∀ s ∈ categoricalDomain, parseFloatJS s = JSNum.nan := by decide
  exact ⟨hnan g hg, hnan a ha⟩

theorem categorical_parse_is_nan_witness :
    ("high" ∈ categoricalDomain ∧ "normal" ∈ categoricalDomain) ∧
    ((mkSubmitBody "60-70" "5" ["Diabetes"] "high" "normal").glucose_test
        = JSNum.nan ∧
     (mkSubmitBody "60-70" "5" ["Diabetes"] "high" "normal").a1c_test
        = JSNum.nan) :=
  ⟨⟨by decide, by decide⟩,
   categorical_parse_is_nan "60-70" "5" ["Diabetes"] "high" "normal"
     (by decide) (by decide)⟩

/-- C7: the `/submit` body construction deterministically re-keys the
structured fields: with age `60-70`, visits `5`, diagnosis `["Diabetes"]`, the
body's `age` is carried through unchanged, `total_visits` is the base-10
integer parse of `"5"`, i.e. 5, and `diagnoses` is the same array. -/
theorem submit_body_rekey :
    (mkSubmitBody "60-70" "5" ["Diabetes"] "high" "normal").age = "60-70" ∧
    (mkSubmitBody "60-70" "5" ["Diabetes"] "high" "normal").total_visits
      = some 5 ∧
    (mkSubmitBody "60-70" "5" ["Diabetes"] "high" "normal").diagnoses
      = ["Diabetes"] := by
  refine ⟨rfl, ?_, rfl⟩
  decide

end SubmitSnippet

namespace Predict

open JS

/-- The HTTP request issued by the Predict view's submit handler. -/
structure PredictRequest where
  url : String
  method : String
  contentType : String
  features : List JSNum
deriving DecidableEq

/-- Build the fetch request of `handleSubmit` in `Predict`: POST to the
prediction endpoint with the features string split on commas and each piece
converted by `Number`. -/
def mkPredictRequest (features : String) : PredictRequest :=
  { url := "http://127.0.0.1:5000/predict"
    method := "POST"
    contentType := "application/json"
    features := (features.splitOn ",").map jsToNumber }

/-- A runtime JS error (a rejected promise or a JSON parse failure). -/
def JSError : Type := String

/-- The raw body of an HTTP response, before JSON parsing. -/
def RawResponse : Type := String

/-- The parsed JSON response expected by the Predict view. -/
structure PredictResponse where
  prediction : String
deriving DecidableEq

/-- The component state of the Predict view. -/
structure PredictState where
  features : String
  result : String
deriving DecidableEq

/-- The `handleSubmit` handler of the Predict view.  The two awaited effects (the fetch
and `response.json()`) are supplied as oracles.  There is no try/catch: an
error from either await propagates, and `setResult` runs only after both
succeed.  Returns the outcome (the issued request and parsed data on success,
the propagated error otherwise) together with the resulting component
state. -/
def handleSubmit (st : PredictState)
    (fetchOracle : PredictRequest → Except JSError RawResponse)
    (jsonOracle : RawResponse → Except JSError PredictResponse) :
    Except JSError (PredictRequest × PredictResponse) × PredictState :=
  let req := mkPredictRequest st.features
  match fetchOracle req with
  | Except.error e => (Except.error e, st)
  | Except.ok resp =>
      match jsonOracle resp with
      | Except.error e => (Except.error e, st)
      | Except.ok data =>
          (Except.ok (req, data), { st with result := data.prediction })

/-- C8: for every features string, the submit handler posts to
`http://127.0.0.1:5000/predict` with a body whose `features` field is the
string split on commas with each piece converted to a number, and on success
stores the response's `prediction` field as the result. -/
theorem predict_submit_request (st : PredictState)
    (fetchOracle : PredictRequest → Except JSError RawResponse)
    (jsonOracle : RawResponse → Except JSError PredictResponse)
    (r : RawResponse) (d : PredictResponse)
    (hf : fetchOracle (mkPredictRequest st.features) = Except.ok r)
    (hj : jsonOracle r = Except.ok d) :
    (mkPredictRequest st.features).url = "http://127.0.0.1:5000/predict" ∧
    (mkPredictRequest st.features).method = "POST" ∧
    (mkPredictRequest st.features).features
      = (st.features.splitOn ",").map jsToNumber ∧
    handleSubmit st fetchOracle jsonOracle
      = (Except.ok (mkPredictRequest st.features, d),
         { st with result := d.prediction }) := by
  refine ⟨rfl, rfl, rfl, ?_⟩
  simp only [handleSubmit, hf, hj]

theorem predict_submit_request_witness :
    ((fun _ : PredictRequest =>
        (Except.ok "resp" : Except JSError RawResponse))
      (mkPredictRequest "1,2") = Except.ok "resp" ∧
     (fun _ : RawResponse =>
        (Except.ok (PredictResponse.mk "0.7") : Except JSError PredictResponse))
      "resp" = Except.ok (PredictResponse.mk "0.7")) ∧
    ((mkPredictRequest "1,2").url = "http://127.0.0.1:5000/predict" ∧
     (mkPredictRequest "1,2").method = "POST" ∧
     (mkPredictRequest "1,2").features
       = (("1,2" : String).splitOn ",").map jsToNumber ∧
     handleSubmit (PredictState.mk "1,2" "")
       (fun _ => Except.ok "resp")
       (fun _ => Except.ok (PredictResponse.mk "0.7"))
       = (Except.ok (mkPredictRequest "1,2", PredictResponse.mk "0.7"),
          PredictState.mk "1,2" "0.7")) :=
  ⟨⟨rfl, rfl⟩,
   predict_submit_request (PredictState.mk "1,2" "")
     (fun _ => Except.ok "resp")
     (fun _ => Except.ok (PredictResponse.mk "0.7"))
     "resp" (PredictResponse.mk "0.7") rfl rfl⟩

/-- C9: the submit handler has no error handling: whenever the fetch rejects,
or the fetch succeeds and the JSON parse of the response fails, the error
propagates out of the handler and the `result` state is left unchanged
(`setResult` is never reached). -/
theorem predict_submit_no_error_handling (st : PredictState)
    (fetchOracle : PredictRequest → Except JSError RawResponse)
    (jsonOracle : RawResponse → Except JSError PredictResponse) :
    (∀ e : JSError, fetchOracle (mkPredictRequest st.features) = Except.error e →
      handleSubmit st fetchOracle jsonOracle = (Except.error e, st)) ∧
    (∀ (r : RawResponse) (e : JSError),
      fetchOracle (mkPredictRequest st.features) = Except.ok r →
      jsonOracle r = Except.error e →
      handleSubmit st fetchOracle jsonOracle = (Except.error e, st)) := by
  constructor
  · intro e hf
    simp only [handleSubmit, hf]
  · intro r e hf hj
    simp only [handleSubmit, hf, hj]

theorem predict_submit_no_error_handling_witness :
    handleSubmit (PredictState.mk "1,2" "old")
      (fun _ => Except.error "network down")
      (fun _ => Except.ok (PredictResponse.mk "0.7"))
      = (Except.error "network down", PredictState.mk "1,2" "old") :=
  (predict_submit_no_error_handling (PredictState.mk "1,2" "old")
     (fun _ => Except.error "network down")
     (fun _ => Except.ok (PredictResponse.mk "0.7"))).1
    "network down" rfl

end Predict
